import Mathlib

/-!
# Cosmo-Focus: verification of the timer / task / statistics state rules

Shallow embedding of the state-management core of the Cosmo-Focus app:
the data model from `types.ts`, and the handlers of the `App` component
(timer tick effect, `handleTimerComplete`, `resetTimerToMode`, `switchMode`,
`resetTimer`, `toggleTask`, `updateTaskDuration`, the startup effect and the
derived metric `completedMinutesToday`), plus the numeric-input coercions of
the task-list inputs.

JS numbers appearing in these records are integers throughout; they are
embedded as `Int`.  `parseInt` on a raw input string is embedded as an
`Option Int`, with `none` standing for `NaN`.  The clock source `getToday()`
is embedded as the `today` field of the application state: the current local
calendar date, constant over a run of the handlers considered here.
-/

namespace Cosmo

/-- `TimerMode` enum: `POMODORO` (focus) or `BREAK`. -/
inductive TimerMode where
  | pomodoro
  | breakMode
deriving DecidableEq

/-- The `Task` record of `types.ts`. -/
structure Task where
  id : String
  title : String
  isCompleted : Bool
  estimatedPomos : Int
  completedPomos : Int
  durationPerPomo : Int
  date : String
deriving DecidableEq

/-- The `DailyStats` record of `types.ts` (one per calendar day). -/
structure DailyStats where
  date : String
  pomodorosCompleted : Int
  minutesFocused : Int
  breaksTaken : Int
  tasksCompleted : Int
deriving DecidableEq

/-- The `AppSettings` record of `types.ts`. -/
structure AppSettings where
  pomodoroTime : Int
  breakTime : Int
  dailyGoalPomos : Int
  streak : Int
  lastActiveDate : String
deriving DecidableEq

/-- The state owned by the `App` component: timer state (`mode`, `timeLeft`,
`isActive`), the three persisted records (`settings`, `tasks`, `dailyStats`),
the active-task binding, and the clock reading `today` (= `getToday()`). -/
structure AppState where
  mode : TimerMode
  timeLeft : Int
  isActive : Bool
  settings : AppSettings
  tasks : List Task
  activeTaskId : Option String
  dailyStats : List DailyStats
  today : String
deriving DecidableEq

/-- `tasks.find(t => t.id === id)`. -/
def findTask (tasks : List Task) (id : String) : Option Task :=
  tasks.find? (fun t => t.id == id)

/-- The duration (in seconds) that `resetTimerToMode` installs for a target
mode: the active task's `durationPerPomo * 60` if one resolves in focus mode,
else `settings.pomodoroTime * 60`; `settings.breakTime * 60` in break mode. -/
def resetDurationSecs (tasks : List Task) (activeTaskId : Option String)
    (settings : AppSettings) (targetMode : TimerMode) : Int :=
  match targetMode with
  | TimerMode.pomodoro =>
      match activeTaskId.bind (fun id => findTask tasks id) with
      | some t => t.durationPerPomo * 60
      | none => settings.pomodoroTime * 60
  | TimerMode.breakMode => settings.breakTime * 60

/-- `resetTimerToMode(targetMode)`. -/
def resetTimerToMode (s : AppState) (targetMode : TimerMode) : AppState :=
  { s with timeLeft := resetDurationSecs s.tasks s.activeTaskId s.settings targetMode }

/-- `switchMode(newMode)`: set mode, stop, reset remaining for the new mode. -/
def switchMode (s : AppState) (newMode : TimerMode) : AppState :=
  resetTimerToMode { s with mode := newMode, isActive := false } newMode

/-- The minutes credited to `minutesFocused` on focus completion:
`activeTaskId ? tasks.find(...)?.durationPerPomo || settings.pomodoroTime
: settings.pomodoroTime`.  JS `||` takes the right operand on a falsy left
operand, so a `durationPerPomo` of `0` (and a dangling id) falls back to
`settings.pomodoroTime`. -/
def focusCredit (tasks : List Task) (activeTaskId : Option String)
    (settings : AppSettings) : Int :=
  match activeTaskId with
  | some id =>
      match findTask tasks id with
      | some t => if t.durationPerPomo = 0 then settings.pomodoroTime else t.durationPerPomo
      | none => settings.pomodoroTime
  | none => settings.pomodoroTime

/-- `handleTimerComplete()` (the Completion transition; also what the Skip
button dispatches).  The `switchMode` call at the end reads the closure's
`tasks` / `settings` / `activeTaskId`; the updates made here change only
`completedPomos` and `streak`, which `resetTimerToMode` does not read, so
passing the updated record is equivalent. -/
def handleTimerComplete (s : AppState) : AppState :=
  match s.mode with
  | TimerMode.pomodoro =>
      let tasks1 :=
        match s.activeTaskId with
        | some id =>
            s.tasks.map (fun t =>
              if t.id = id then { t with completedPomos := t.completedPomos + 1 } else t)
        | none => s.tasks
      let stats1 := s.dailyStats.map (fun day =>
        if day.date = s.today then
          { day with
            pomodorosCompleted := day.pomodorosCompleted + 1,
            minutesFocused := day.minutesFocused + focusCredit s.tasks s.activeTaskId s.settings }
        else day)
      switchMode
        { s with
          tasks := tasks1,
          dailyStats := stats1,
          settings := { s.settings with streak := s.settings.streak + 1 } }
        TimerMode.breakMode
  | TimerMode.breakMode =>
      let stats1 := s.dailyStats.map (fun day =>
        if day.date = s.today then { day with breaksTaken := day.breaksTaken + 1 } else day)
      switchMode { s with dailyStats := stats1 } TimerMode.pomodoro

/-- One cycle of the one-second tick together with the timer `useEffect`:
while active with `timeLeft > 0` the interval decrements `timeLeft`; the
effect then re-runs and, if `timeLeft` has reached `0` while active, calls
`handleTimerComplete` synchronously before any further tick.  An active timer
at exactly `0` completes without a decrement; at a negative value the effect
merely clears the interval.  The second component counts whether the
Completion transition fired during this cycle. -/
def tickCount (s : AppState) : AppState × Nat :=
  if s.isActive = true then
    if 0 < s.timeLeft then
      let s1 := { s with timeLeft := s.timeLeft - 1 }
      if s1.timeLeft = 0 then (handleTimerComplete s1, 1) else (s1, 0)
    else if s.timeLeft = 0 then (handleTimerComplete s, 1)
    else (s, 0)
  else (s, 0)

/-- The state after one tick cycle. -/
def tick (s : AppState) : AppState := (tickCount s).1

/-- The number of Completion transitions fired during `n` tick cycles. -/
def completionsIn : AppState → Nat → Nat
  | _, 0 => 0
  | s, n + 1 => (tickCount s).2 + completionsIn (tickCount s).1 n

/-- The `currentTotal` that `resetTimer` compares `timeLeft` against.  In
focus mode it is `(activeTaskId ? tasks.find(...)?.durationPerPomo ||
settings.pomodoroTime : settings.pomodoroTime) * 60`: unlike
`resetTimerToMode`, it applies the `||` fallback to a `0` override. -/
def resetCueTotal (s : AppState) : Int :=
  match s.mode with
  | TimerMode.pomodoro => focusCredit s.tasks s.activeTaskId s.settings * 60
  | TimerMode.breakMode => s.settings.breakTime * 60

/-- Whether `resetTimer()` plays the `fail` cue:
`isActive || timeLeft !== currentTotal`. -/
def resetPlaysFail (s : AppState) : Bool :=
  s.isActive || s.timeLeft != resetCueTotal s

/-- `resetTimer()`: possibly play the fail cue, stop, reset for current mode. -/
def resetTimer (s : AppState) : AppState :=
  resetTimerToMode { s with isActive := false } s.mode

/-- `toggleTask(id)`: flip the task's completion flag and credit/debit
today's `tasksCompleted`, floored at `0`. -/
def toggleTask (s : AppState) (id : String) : AppState :=
  match findTask s.tasks id with
  | none => s
  | some task =>
      let newCompletionState := !task.isCompleted
      let tasks1 := s.tasks.map (fun t =>
        if t.id = id then { t with isCompleted := newCompletionState } else t)
      let stats1 := s.dailyStats.map (fun day =>
        if day.date = s.today then
          { day with
            tasksCompleted :=
              max 0 (day.tasksCompleted + (if newCompletionState then 1 else -1)) }
        else day)
      { s with tasks := tasks1, dailyStats := stats1 }

/-- `updateTaskDuration(id, duration)`: update the task's override; if that
task is active, the timer paused and the mode focus, also set `timeLeft`. -/
def updateTaskDuration (s : AppState) (id : String) (duration : Int) : AppState :=
  let tasks1 := s.tasks.map (fun t =>
    if t.id = id then { t with durationPerPomo := duration } else t)
  if s.activeTaskId = some id ∧ s.isActive = false ∧ s.mode = TimerMode.pomodoro then
    { s with tasks := tasks1, timeLeft := duration * 60 }
  else
    { s with tasks := tasks1 }

/-- The startup `useEffect`: update `lastActiveDate` on day rollover, and
append a zero-valued stats record for today when none exists. -/
def startupEffect (s : AppState) : AppState :=
  let settings1 :=
    if s.today ≠ s.settings.lastActiveDate then
      { s.settings with lastActiveDate := s.today }
    else s.settings
  let stats1 :=
    match s.dailyStats.find? (fun st => st.date == s.today) with
    | some _ => s.dailyStats
    | none =>
        s.dailyStats ++
          [{ date := s.today, pomodorosCompleted := 0, minutesFocused := 0,
             breaksTaken := 0, tasksCompleted := 0 }]
  { s with settings := settings1, dailyStats := stats1 }

/-- The derived metric `completedMinutesToday`:
`tasks.filter(t => t.date === today && t.isCompleted)
      .reduce((acc, t) => acc + t.estimatedPomos * t.durationPerPomo, 0)`. -/
def completedMinutesToday (tasks : List Task) (today : String) : Int :=
  (tasks.filter (fun t => t.date == today && t.isCompleted)).foldl
    (fun acc t => acc + t.estimatedPomos * t.durationPerPomo) 0

/-- The `onChange` coercion of the per-task duration edit input:
`parseInt(value) || 25`.  `none` models a `NaN` parse; `0` is falsy and also
falls back to `25`; any other integer — negative included — passes through. -/
def durationEditCoerce (p : Option Int) : Int :=
  match p with
  | none => 25
  | some n => if n = 0 then 25 else n

/-- The `onChange` coercion of the break-time input:
`Math.max(1, parseInt(value) || 0)`. -/
def breakChangeCoerce (p : Option Int) : Int :=
  max 1 (match p with | none => 0 | some n => n)

/-- The `onChange` of the add-task-form estimate input stores the raw
`parseInt(value)` with no coercion: a `NaN` parse (`none`) is stored as is. -/
def estPomosInputStore (p : Option Int) : Option Int := p

/-- A `DailyStats` record with all four counters zero, as created by the
startup effect. -/
def zeroStats (date : String) : DailyStats :=
  { date := date, pomodorosCompleted := 0, minutesFocused := 0,
    breaksTaken := 0, tasksCompleted := 0 }

/-- The full duration that the C8 claim's resolution rule names: the active
Task's `durationPerPomo` whenever a Task is selected, with no fallback on a
zero override.  Stated from the claim's words, for comparison with
`resetCueTotal`. -/
def claimResetFullDuration (s : AppState) : Int :=
  match s.mode with
  | TimerMode.pomodoro =>
      (match s.activeTaskId.bind (fun id => findTask s.tasks id) with
       | some t => t.durationPerPomo
       | none => s.settings.pomodoroTime) * 60
  | TimerMode.breakMode => s.settings.breakTime * 60

/-- The fail-cue condition the C8 claim states: running, or remaining differs
from `claimResetFullDuration`. -/
def claimResetCue (s : AppState) : Bool :=
  s.isActive || s.timeLeft != claimResetFullDuration s

/-- The focus-completion credit as amended: the active Task's
`durationPerPomo` when the id resolves to a task whose override is nonzero,
else `Settings.pomodoroTime`. -/
def amendedCredit (tasks : List Task) (activeTaskId : Option String)
    (settings : AppSettings) : Int :=
  match activeTaskId.bind (fun id => findTask tasks id) with
  | some t => if t.durationPerPomo = 0 then settings.pomodoroTime else t.durationPerPomo
  | none => settings.pomodoroTime

/-- The full duration of the current mode as amended for C8: in focus mode
the resolution falls back to `Settings.pomodoroTime` when the override is `0`
or the id matches no task. -/
def amendedResetFullDuration (s : AppState) : Int :=
  match s.mode with
  | TimerMode.pomodoro => amendedCredit s.tasks s.activeTaskId s.settings * 60
  | TimerMode.breakMode => s.settings.breakTime * 60

/-- Default-like settings used by the concrete example states. -/
def baseSettings : AppSettings :=
  { pomodoroTime := 25, breakTime := 5, dailyGoalPomos := 8, streak := 0,
    lastActiveDate := "d1" }

/-- Example state: running focus timer at 2 seconds remaining. -/
def exC1 : AppState :=
  { mode := TimerMode.pomodoro, timeLeft := 2, isActive := true,
    settings := baseSettings, tasks := [], activeTaskId := none,
    dailyStats := [zeroStats "d1"], today := "d1" }

/-- Example state: running focus timer, no active task. -/
def exC2 : AppState :=
  { mode := TimerMode.pomodoro, timeLeft := 7, isActive := true,
    settings := baseSettings, tasks := [], activeTaskId := none,
    dailyStats := [zeroStats "d1"], today := "d1" }

/-- Example task with a zero duration override. -/
def exC3Task : Task :=
  { id := "z0", title := "Z", isCompleted := false, estimatedPomos := 2,
    completedPomos := 0, durationPerPomo := 0, date := "d1" }

/-- Example state: focus mode with the zero-override task active. -/
def exC3 : AppState :=
  { mode := TimerMode.pomodoro, timeLeft := 0, isActive := true,
    settings := baseSettings, tasks := [exC3Task], activeTaskId := some "z0",
    dailyStats := [zeroStats "d1"], today := "d1" }

/-- Example state: the only stats record is for a prior day, none for today. -/
def exC4 : AppState :=
  { mode := TimerMode.pomodoro, timeLeft := 60, isActive := true,
    settings := baseSettings, tasks := [], activeTaskId := none,
    dailyStats := [zeroStats "d0"], today := "d1" }

/-- Example task scheduled for a date other than today. -/
def exC5Task : Task :=
  { id := "t5", title := "T5", isCompleted := false, estimatedPomos := 3,
    completedPomos := 1, durationPerPomo := 20, date := "d9" }

/-- Example state: task dated `d9`, stats records for today and a prior day. -/
def exC5 : AppState :=
  { mode := TimerMode.pomodoro, timeLeft := 60, isActive := false,
    settings := baseSettings, tasks := [exC5Task], activeTaskId := none,
    dailyStats := [zeroStats "d0", zeroStats "d1"], today := "d1" }

/-- Example tasks: the active one and a bystander. -/
def exC6TaskA : Task :=
  { id := "a6", title := "A", isCompleted := false, estimatedPomos := 4,
    completedPomos := 1, durationPerPomo := 30, date := "d1" }

/-- Bystander task not bound to the timer. -/
def exC6TaskB : Task :=
  { id := "b6", title := "B", isCompleted := false, estimatedPomos := 2,
    completedPomos := 0, durationPerPomo := 15, date := "d1" }

/-- Example state: focus completion with task `a6` active. -/
def exC6 : AppState :=
  { mode := TimerMode.pomodoro, timeLeft := 0, isActive := true,
    settings := baseSettings, tasks := [exC6TaskA, exC6TaskB],
    activeTaskId := some "a6", dailyStats := [zeroStats "d1"], today := "d1" }

/-- Example task whose duration the user edits. -/
def exC7Task : Task :=
  { id := "t7", title := "T7", isCompleted := false, estimatedPomos := 2,
    completedPomos := 0, durationPerPomo := 25, date := "d1" }

/-- Example state: task `t7` active, timer paused in focus mode. -/
def exC7 : AppState :=
  { mode := TimerMode.pomodoro, timeLeft := 25 * 60, isActive := false,
    settings := baseSettings, tasks := [exC7Task], activeTaskId := some "t7",
    dailyStats := [zeroStats "d1"], today := "d1" }

/-- Example task with a zero duration override, bound to the timer. -/
def exC8Task : Task :=
  { id := "z8", title := "Z8", isCompleted := false, estimatedPomos := 1,
    completedPomos := 0, durationPerPomo := 0, date := "d1" }

/-- Example state: paused pristine focus timer whose active task has a zero
override, so `timeLeft` equals the override-resolved full duration `0`. -/
def exC8 : AppState :=
  { mode := TimerMode.pomodoro, timeLeft := 0, isActive := false,
    settings := baseSettings, tasks := [exC8Task], activeTaskId := some "z8",
    dailyStats := [zeroStats "d1"], today := "d1" }

/-- Example state at startup: `lastActiveDate` is a prior day and the only
stats record is for that prior day. -/
def exC10 : AppState :=
  { mode := TimerMode.pomodoro, timeLeft := 25 * 60, isActive := false,
    settings := { baseSettings with lastActiveDate := "d0" }, tasks := [],
    activeTaskId := none, dailyStats := [zeroStats "d0"], today := "d1" }

/-! ## Helper lemmas -/

theorem map_eq_self_of_mem {α : Type} (l : List α) (f : α → α)
    (h : ∀ a ∈ l, f a = a) : l.map f = l :=
  (List.map_congr_left h).trans (List.map_id l)

theorem foldl_add_eq_sum {α : Type} (v : α → Int) (l : List α) (c : Int) :
    l.foldl (fun acc t => acc + v t) c = c + (l.map v).sum := by
  induction l generalizing c with
  | nil => simp
  | cons a t ih => simp [ih, add_assoc]

theorem minutes_foldl_eq_sum (l : List Task) (c : Int) :
    l.foldl (fun acc t => acc + t.estimatedPomos * t.durationPerPomo) c =
      c + (l.map (fun t => t.estimatedPomos * t.durationPerPomo)).sum := by
  induction l generalizing c with
  | nil => simp
  | cons a t ih => simp [ih, add_assoc]

theorem sum_map_filter {α : Type} (p : α → Bool) (v : α → Int) (l : List α) :
    ((l.filter p).map v).sum = (l.map (fun a => if p a = true then v a else 0)).sum := by
  induction l with
  | nil => rfl
  | cons a t ih => by_cases h : p a = true <;> simp [List.filter_cons, h, ih]

theorem handleTimerComplete_pomodoro (s : AppState)
    (hm : s.mode = TimerMode.pomodoro) :
    handleTimerComplete s =
      { s with
        mode := TimerMode.breakMode,
        isActive := false,
        timeLeft := s.settings.breakTime * 60,
        tasks :=
          match s.activeTaskId with
          | some id =>
              s.tasks.map (fun t =>
                if t.id = id then { t with completedPomos := t.completedPomos + 1 } else t)
          | none => s.tasks,
        dailyStats := s.dailyStats.map (fun day =>
          if day.date = s.today then
            { day with
              pomodorosCompleted := day.pomodorosCompleted + 1,
              minutesFocused := day.minutesFocused +
                focusCredit s.tasks s.activeTaskId s.settings }
          else day),
        settings := { s.settings with streak := s.settings.streak + 1 } } := by
  obtain ⟨m, tl, ia, st, ts, aid, ds, td⟩ := s
  have hm2 : m = TimerMode.pomodoro := hm
  subst hm2
  rfl

theorem handleTimerComplete_breakMode (s : AppState)
    (hm : s.mode = TimerMode.breakMode) :
    handleTimerComplete s =
      { s with
        mode := TimerMode.pomodoro,
        isActive := false,
        timeLeft := resetDurationSecs s.tasks s.activeTaskId s.settings TimerMode.pomodoro,
        dailyStats := s.dailyStats.map (fun day =>
          if day.date = s.today then { day with breaksTaken := day.breaksTaken + 1 }
          else day) } := by
  obtain ⟨m, tl, ia, st, ts, aid, ds, td⟩ := s
  have hm2 : m = TimerMode.breakMode := hm
  subst hm2
  rfl

/-! ## Claim theorems -/

/-- Claim C2: from focus (Pomodoro) mode, the Completion transition — whether
from the natural zero or from Skip, both of which run `handleTimerComplete` —
stops the timer, switches the mode to Break, and sets the remaining time to
`Settings.breakTime * 60` seconds, for every task list, active-task binding
and task duration override. -/
theorem focus_completion_switches_to_break (s : AppState)
    (hm : s.mode = TimerMode.pomodoro) :
    (handleTimerComplete s).mode = TimerMode.breakMode ∧
    (handleTimerComplete s).isActive = false ∧
    (handleTimerComplete s).timeLeft = s.settings.breakTime * 60 := by
  rw [handleTimerComplete_pomodoro s hm]
  exact ⟨rfl, rfl, rfl⟩

theorem focus_completion_switches_to_break_witness :
    (handleTimerComplete exC2).mode = TimerMode.breakMode ∧
    (handleTimerComplete exC2).isActive = false ∧
    (handleTimerComplete exC2).timeLeft = exC2.settings.breakTime * 60 :=
  focus_completion_switches_to_break exC2 rfl

/-- Claim C9: `completedMinutesToday` equals the sum of
`estimatedPomos * durationPerPomo` over exactly the tasks that are both
completed and dated today, and is unchanged when every task's
`completedPomos` is replaced arbitrarily. -/
theorem completedMinutesToday_spec (tasks : List Task) (today : String)
    (g : Task → Int) :
    completedMinutesToday tasks today =
      (tasks.map (fun t =>
        if t.date = today ∧ t.isCompleted = true then
          t.estimatedPomos * t.durationPerPomo
        else 0)).sum ∧
    completedMinutesToday (tasks.map (fun t => { t with completedPomos := g t })) today =
      completedMinutesToday tasks today := by
  constructor
  · unfold completedMinutesToday
    rw [minutes_foldl_eq_sum, zero_add, sum_map_filter]
    congr 1
    apply List.map_congr_left
    intro t _
    by_cases hd : t.date = today <;> by_cases hc : t.isCompleted = true <;>
      simp [hd, hc]
  · unfold completedMinutesToday
    rw [List.filter_map, minutes_foldl_eq_sum, minutes_foldl_eq_sum,
      zero_add, zero_add, List.map_map]
    rfl

/-- The focus-completion credit of the code coincides with the amended
resolution rule stated through `Option.bind`. -/
theorem focusCredit_eq_amendedCredit (tasks : List Task)
    (activeTaskId : Option String) (settings : AppSettings) :
    focusCredit tasks activeTaskId settings = amendedCredit tasks activeTaskId settings := by
  cases activeTaskId with
  | none => rfl
  | some id => rfl

/-- Claim C3 counterexample: with an active task whose `durationPerPomo` is
`0`, a focus completion credits `Settings.pomodoroTime = 25` minutes to
today's record, not the override value `0` the claim requires. -/
theorem focus_minutes_credit_cex :
    exC3.mode = TimerMode.pomodoro ∧
    exC3.activeTaskId = some "z0" ∧
    findTask exC3.tasks "z0" = some exC3Task ∧
    exC3Task.durationPerPomo = 0 ∧
    ((exC3.dailyStats.map DailyStats.minutesFocused) = [0]) ∧
    ((handleTimerComplete exC3).dailyStats.map DailyStats.minutesFocused) = [25] ∧
    (25 : Int) ≠ 0 + 0 := by
  refine ⟨rfl, rfl, rfl, rfl, rfl, rfl, by decide⟩

/-- Claim C3 amended: on a focus completion, the minutes added to today's
Daily Statistic `minutesFocused` equal the active Task's `durationPerPomo`
when a Task is selected, its id resolves, and its override is nonzero; they
equal `Settings.pomodoroTime` when the override is `0`, the id matches no
task, or no Task is selected. -/
theorem focus_minutes_credit_amended (s : AppState)
    (hm : s.mode = TimerMode.pomodoro)
    (i : Nat) (day : DailyStats) (hget : s.dailyStats[i]? = some day)
    (hdate : day.date = s.today) :
    ∃ day2, (handleTimerComplete s).dailyStats[i]? = some day2 ∧
      day2.minutesFocused =
        day.minutesFocused + amendedCredit s.tasks s.activeTaskId s.settings := by
  have hds : (handleTimerComplete s).dailyStats =
      s.dailyStats.map (fun day =>
        if day.date = s.today then
          { day with
            pomodorosCompleted := day.pomodorosCompleted + 1,
            minutesFocused := day.minutesFocused +
              focusCredit s.tasks s.activeTaskId s.settings }
        else day) := by
    rw [handleTimerComplete_pomodoro s hm]
  refine ⟨if day.date = s.today then
      { day with
        pomodorosCompleted := day.pomodorosCompleted + 1,
        minutesFocused := day.minutesFocused +
          focusCredit s.tasks s.activeTaskId s.settings }
    else day, ?_, ?_⟩
  · rw [hds, List.getElem?_map, hget, Option.map_some']
  · simp [hdate, focusCredit_eq_amendedCredit]

theorem focus_minutes_credit_amended_witness :
    ((handleTimerComplete exC3).dailyStats[0]?.map DailyStats.minutesFocused) =
      some ((zeroStats "d1").minutesFocused +
        amendedCredit exC3.tasks exC3.activeTaskId exC3.settings) := by
  obtain ⟨day2, hget, hmin⟩ :=
    focus_minutes_credit_amended exC3 rfl 0 (zeroStats "d1") rfl rfl
  rw [hget, Option.map_some', hmin]

/-- Claim C8 counterexample: a paused focus timer whose active task has a
zero duration override and whose `timeLeft` equals that override-resolved
full duration (`0` seconds) is pristine under the claim's resolution rule, so
the claim requires no cue; the code's `currentTotal` applies the `||`
fallback to the zero override and plays the fail cue. -/
theorem reset_cue_claim_cex :
    exC8.isActive = false ∧
    exC8.timeLeft = claimResetFullDuration exC8 ∧
    claimResetCue exC8 = false ∧
    resetPlaysFail exC8 = true := by
  refine ⟨rfl, rfl, rfl, rfl⟩

/-- Claim C8 amended: Reset emits the fail cue if and only if the timer is
running or the remaining time differs from the full duration of the current
mode, where the focus-mode resolution falls back to `Settings.pomodoroTime`
not only when no Task is selected but also when the active Task's
`durationPerPomo` is `0` or its id matches no task. -/
theorem reset_cue_iff_amended (s : AppState) :
    resetPlaysFail s = true ↔
      (s.isActive = true ∨ s.timeLeft ≠ amendedResetFullDuration s) := by
  have htot : resetCueTotal s = amendedResetFullDuration s := by
    cases hm : s.mode with
    | pomodoro =>
        simp only [resetCueTotal, amendedResetFullDuration, hm,
          focusCredit_eq_amendedCredit]
    | breakMode => simp only [resetCueTotal, amendedResetFullDuration, hm]
  rw [resetPlaysFail, htot, Bool.or_eq_true, bne_iff_ne]

/-- Claim C7 failing input: typing `-5` into the per-task duration edit field
parses to `-5`, which is truthy, so the `|| 25` fallback does not apply; the
handler then stores `durationPerPomo = -5` on the task and — the task being
active, the timer paused and the mode focus — sets the remaining time to
`-300` seconds.  The break-time input, by contrast, does clamp (shown last),
so the claimed coercion holds for it but not for the task inputs, and the
add-form estimate handler stores an uncoerced `NaN` parse (`none`). -/
theorem negative_duration_enters_state :
    durationEditCoerce (some (-5)) = -5 ∧
    ((updateTaskDuration exC7 "t7" (durationEditCoerce (some (-5)))).tasks.map
        Task.durationPerPomo) = [-5] ∧
    (updateTaskDuration exC7 "t7" (durationEditCoerce (some (-5)))).timeLeft = -300 ∧
    (updateTaskDuration exC7 "t7" (durationEditCoerce (some (-5)))).timeLeft < 0 ∧
    estPomosInputStore none = none ∧
    breakChangeCoerce (some (-5)) = 1 := by
  refine ⟨rfl, rfl, rfl, by decide, rfl, rfl⟩

/-- Claim C4: every statistics-crediting operation — focus completion, break
completion (both via `handleTimerComplete`, whatever the mode) and the task
completion toggle — preserves the length of `dailyStats` (never creates a
record), leaves every record whose date is not today untouched, and when no
record for today exists leaves the whole list unchanged, silently dropping
the credit. -/
theorem stats_credit_only_existing_today (s : AppState) (id : String) :
    (handleTimerComplete s).dailyStats.length = s.dailyStats.length ∧
    (toggleTask s id).dailyStats.length = s.dailyStats.length ∧
    (∀ (i : Nat) (day : DailyStats), s.dailyStats[i]? = some day →
      day.date ≠ s.today →
      (handleTimerComplete s).dailyStats[i]? = some day ∧
      (toggleTask s id).dailyStats[i]? = some day) ∧
    ((∀ day ∈ s.dailyStats, day.date ≠ s.today) →
      (handleTimerComplete s).dailyStats = s.dailyStats ∧
      (toggleTask s id).dailyStats = s.dailyStats) := by
  have htc : ∃ f : DailyStats → DailyStats,
      (handleTimerComplete s).dailyStats = s.dailyStats.map f ∧
      ∀ day, day.date ≠ s.today → f day = day := by
    cases hm : s.mode with
    | pomodoro =>
        exact ⟨_, by rw [handleTimerComplete_pomodoro s hm],
          fun day hd => if_neg hd⟩
    | breakMode =>
        exact ⟨_, by rw [handleTimerComplete_breakMode s hm],
          fun day hd => if_neg hd⟩
  have htg : ∃ f : DailyStats → DailyStats,
      (toggleTask s id).dailyStats = s.dailyStats.map f ∧
      ∀ day, day.date ≠ s.today → f day = day := by
    cases h : findTask s.tasks id with
    | none => exact ⟨fun d => d, by simp [toggleTask, h], fun _ _ => rfl⟩
    | some task =>
        refine ⟨fun day =>
          if day.date = s.today then
            { day with
              tasksCompleted :=
                max 0 (day.tasksCompleted + (if !task.isCompleted then 1 else -1)) }
          else day, ?_, fun day hd => if_neg hd⟩
        simp [toggleTask, h]
  obtain ⟨f1, hf1, hf1id⟩ := htc
  obtain ⟨f2, hf2, hf2id⟩ := htg
  refine ⟨by rw [hf1, List.length_map], by rw [hf2, List.length_map], ?_, ?_⟩
  · intro i day hget hd
    constructor
    · rw [hf1, List.getElem?_map, hget, Option.map_some', hf1id day hd]
    · rw [hf2, List.getElem?_map, hget, Option.map_some', hf2id day hd]
  · intro hall
    constructor
    · rw [hf1]
      exact map_eq_self_of_mem _ _ (fun a ha => hf1id a (hall a ha))
    · rw [hf2]
      exact map_eq_self_of_mem _ _ (fun a ha => hf2id a (hall a ha))

theorem stats_credit_only_existing_today_witness :
    (handleTimerComplete exC4).dailyStats = exC4.dailyStats ∧
    (toggleTask exC4 "x").dailyStats = exC4.dailyStats :=
  (stats_credit_only_existing_today exC4 "x").2.2.2 (by decide)

/-- Claim C5: toggling a registered Task to completed increments today's
`tasksCompleted` by exactly 1; toggling it back to incomplete decrements it
by exactly 1, floored at 0 (never negative, even when toggled off twice);
in both directions only the record for today's date changes — the Task's own
scheduled date `t.date` is unconstrained here, so the target is independent
of it. -/
theorem toggle_task_today_counter (s : AppState) (id : String) (t : Task)
    (hfind : findTask s.tasks id = some t)
    (i : Nat) (day : DailyStats) (hget : s.dailyStats[i]? = some day) :
    ∃ day2, (toggleTask s id).dailyStats[i]? = some day2 ∧
      (day.date ≠ s.today → day2 = day) ∧
      (day.date = s.today → 0 ≤ day.tasksCompleted →
        (t.isCompleted = false →
          day2 = { day with tasksCompleted := day.tasksCompleted + 1 }) ∧
        (t.isCompleted = true →
          day2 = { day with tasksCompleted := max 0 (day.tasksCompleted - 1) } ∧
          0 ≤ day2.tasksCompleted ∧
          (day.tasksCompleted = 0 → day2.tasksCompleted = 0) ∧
          (1 ≤ day.tasksCompleted →
            day2.tasksCompleted = day.tasksCompleted - 1))) := by
  have hds : (toggleTask s id).dailyStats =
      s.dailyStats.map (fun day =>
        if day.date = s.today then
          { day with
            tasksCompleted :=
              max 0 (day.tasksCompleted + (if !t.isCompleted then 1 else -1)) }
        else day) := by
    simp [toggleTask, hfind]
  refine ⟨if day.date = s.today then
      { day with
        tasksCompleted :=
          max 0 (day.tasksCompleted + (if !t.isCompleted then 1 else -1)) }
    else day,
    by rw [hds, List.getElem?_map, hget, Option.map_some'],
    fun hd => if_neg hd, ?_⟩
  intro hd h0
  rw [if_pos hd]
  constructor
  · intro hc
    have hmax : max 0 (day.tasksCompleted + (if !t.isCompleted then 1 else -1)) =
        day.tasksCompleted + 1 := by
      rw [hc]
      show max 0 (day.tasksCompleted + 1) = day.tasksCompleted + 1
      exact max_eq_right (by omega)
    rw [hmax]
  · intro hc
    have hmax : max 0 (day.tasksCompleted + (if !t.isCompleted then 1 else -1)) =
        max 0 (day.tasksCompleted - 1) := by
      rw [hc]
      rfl
    rw [hmax]
    refine ⟨rfl, le_max_left 0 _, ?_, ?_⟩
    · intro h00
      show max 0 (day.tasksCompleted - 1) = 0
      rw [h00]
      decide
    · intro h1
      exact max_eq_right (by omega)

theorem toggle_task_today_counter_witness :
    (toggleTask exC5 "t5").dailyStats[1]? =
      some { zeroStats "d1" with
             tasksCompleted := (zeroStats "d1").tasksCompleted + 1 } := by
  obtain ⟨day2, hget, hne, htoday⟩ :=
    toggle_task_today_counter exC5 "t5" exC5Task rfl 1 (zeroStats "d1") rfl
  have h1 := (htoday rfl (by decide)).1 rfl
  rw [hget, h1]

/-- Claim C6: a focus-mode Completion with an active Task increments that
Task's `completedPomos` by exactly 1 — every other field of it, and every
other Task, unchanged — and with no active Task modifies no Task at all.
The per-position statement identifies "the active Task" as every task whose
id equals the active id; ids are unique by construction
(`crypto.randomUUID`). -/
theorem focus_completion_task_frame (s : AppState)
    (hm : s.mode = TimerMode.pomodoro) :
    (s.activeTaskId = none → (handleTimerComplete s).tasks = s.tasks) ∧
    (∀ id, s.activeTaskId = some id →
      (handleTimerComplete s).tasks.length = s.tasks.length ∧
      ∀ (i : Nat) (t : Task), s.tasks[i]? = some t →
        (t.id ≠ id → (handleTimerComplete s).tasks[i]? = some t) ∧
        (t.id = id → (handleTimerComplete s).tasks[i]? =
          some { t with completedPomos := t.completedPomos + 1 })) := by
  have hts : (handleTimerComplete s).tasks =
      match s.activeTaskId with
      | some id =>
          s.tasks.map (fun t =>
            if t.id = id then { t with completedPomos := t.completedPomos + 1 } else t)
      | none => s.tasks := by
    rw [handleTimerComplete_pomodoro s hm]
  constructor
  · intro hnone
    rw [hts, hnone]
  · intro id hid
    have hts2 : (handleTimerComplete s).tasks =
        s.tasks.map (fun t =>
          if t.id = id then { t with completedPomos := t.completedPomos + 1 } else t) := by
      rw [hts, hid]
    refine ⟨by rw [hts2, List.length_map], ?_⟩
    intro i t hget
    constructor
    · intro hne
      rw [hts2, List.getElem?_map, hget, Option.map_some', if_neg hne]
    · intro heq
      rw [hts2, List.getElem?_map, hget, Option.map_some', if_pos heq]

theorem focus_completion_task_frame_witness :
    (handleTimerComplete exC6).tasks[0]? =
      some { exC6TaskA with completedPomos := exC6TaskA.completedPomos + 1 } :=
  (((focus_completion_task_frame exC6 rfl).2 "a6" rfl).2 0 exC6TaskA rfl).2 rfl

/-- Claim C10: at startup, if `lastActiveDate` differs from today it is set
to today; every already-present stats record is preserved at its position
(so an existing record for today is never overwritten and no prior day's
record is modified); when a record for today exists the list is unchanged,
and when none exists exactly the zero-valued record for today is appended. -/
theorem startup_effect_spec (s : AppState) :
    (s.settings.lastActiveDate ≠ s.today →
      (startupEffect s).settings.lastActiveDate = s.today) ∧
    (∀ (i : Nat) (day : DailyStats), s.dailyStats[i]? = some day →
      (startupEffect s).dailyStats[i]? = some day) ∧
    ((∃ day ∈ s.dailyStats, day.date = s.today) →
      (startupEffect s).dailyStats = s.dailyStats) ∧
    ((∀ day ∈ s.dailyStats, day.date ≠ s.today) →
      (startupEffect s).dailyStats = s.dailyStats ++ [zeroStats s.today]) := by
  have hset : (startupEffect s).settings =
      if s.today ≠ s.settings.lastActiveDate then
        { s.settings with lastActiveDate := s.today }
      else s.settings := rfl
  have hds : (startupEffect s).dailyStats =
      match s.dailyStats.find? (fun st => st.date == s.today) with
      | some _ => s.dailyStats
      | none => s.dailyStats ++ [zeroStats s.today] := rfl
  refine ⟨?_, ?_, ?_, ?_⟩
  · intro h
    rw [hset, if_pos (Ne.symm h)]
  · intro i day hget
    rw [hds]
    cases hfind : s.dailyStats.find? (fun st => st.date == s.today) with
    | some x => exact hget
    | none =>
        show (s.dailyStats ++ [zeroStats s.today])[i]? = some day
        have hlt : i < s.dailyStats.length := by
          by_contra hge
          rw [List.getElem?_eq_none (by omega)] at hget
          exact Option.noConfusion hget
        rw [List.getElem?_append, if_pos hlt]
        exact hget
  · rintro ⟨day, hmem, hdate⟩
    rw [hds]
    cases hfind : s.dailyStats.find? (fun st => st.date == s.today) with
    | some x => rfl
    | none =>
        exfalso
        have := List.find?_eq_none.mp hfind day hmem
        simp [hdate] at this
  · intro hall
    rw [hds]
    cases hfind : s.dailyStats.find? (fun st => st.date == s.today) with
    | some x =>
        exfalso
        have hmem := List.mem_of_find?_eq_some hfind
        have hp := List.find?_some hfind
        exact hall x hmem (by simpa using hp)
    | none => rfl

theorem startup_effect_spec_witness :
    (startupEffect exC10).settings.lastActiveDate = exC10.today ∧
    (startupEffect exC10).dailyStats = exC10.dailyStats ++ [zeroStats exC10.today] :=
  ⟨(startup_effect_spec exC10).1 (by decide),
   (startup_effect_spec exC10).2.2.2 (by decide)⟩

theorem handleTimerComplete_isActive (s : AppState) :
    (handleTimerComplete s).isActive = false := by
  cases hm : s.mode with
  | pomodoro => rw [handleTimerComplete_pomodoro s hm]
  | breakMode => rw [handleTimerComplete_breakMode s hm]

theorem tickCount_inactive (s : AppState) (hA : s.isActive = false) :
    tickCount s = (s, 0) := by
  simp [tickCount, hA]

theorem tickCount_decrement (s : AppState) (hA : s.isActive = true)
    (h2 : 1 < s.timeLeft) :
    tickCount s = ({ s with timeLeft := s.timeLeft - 1 }, 0) := by
  have h0 : 0 < s.timeLeft := by omega
  have h1 : ¬ ((s.timeLeft - 1) = 0) := by omega
  simp [tickCount, hA, h0, h1]

theorem tickCount_last (s : AppState) (hA : s.isActive = true)
    (h1 : s.timeLeft = 1) :
    tickCount s = (handleTimerComplete { s with timeLeft := 0 }, 1) := by
  simp [tickCount, hA, h1]

/-- Claim C1: from a running state with `timeLeft = d > 0` seconds, running
the one-second tick cycle `d` times fires the Completion transition exactly
once; before each of those ticks the timer is still running with remaining
`d - k` (each earlier tick decremented by exactly one, with Completion fired
by the tick on which remaining reaches zero). -/
theorem tick_run_completes_once (s : AppState) (d : Nat)
    (hA : s.isActive = true) (hT : s.timeLeft = (d : Int)) (hd : 0 < d) :
    completionsIn s d = 1 ∧
    ∀ k : Nat, k < d →
      (tick^[k] s).isActive = true ∧
      (tick^[k] s).timeLeft = (d : Int) - (k : Int) := by
  induction d generalizing s with
  | zero => omega
  | succ m ih =>
    cases Nat.eq_zero_or_pos m with
    | inl hm0 =>
        subst hm0
        have hT1 : s.timeLeft = 1 := by rw [hT]; norm_num
        have hlast := tickCount_last s hA hT1
        constructor
        · show (tickCount s).2 + completionsIn (tickCount s).1 0 = 1
          rw [hlast]
          rfl
        · intro k hk
          have hk0 : k = 0 := by omega
          subst hk0
          refine ⟨hA, ?_⟩
          rw [Function.iterate_zero_apply, hT1]
          norm_num
    | inr hm1 =>
        have h2 : 1 < s.timeLeft := by rw [hT]; omega
        have hdec := tickCount_decrement s hA h2
        have hs1A : AppState.isActive { s with timeLeft := s.timeLeft - 1 } = true := hA
        have hs1T : AppState.timeLeft { s with timeLeft := s.timeLeft - 1 } = (m : Int) := by
          show s.timeLeft - 1 = (m : Int)
          rw [hT]
          push_cast
          ring
        obtain ⟨ihc, ihk⟩ := ih { s with timeLeft := s.timeLeft - 1 } hs1A hs1T hm1
        constructor
        · show (tickCount s).2 + completionsIn (tickCount s).1 m = 1
          rw [hdec]
          simpa using ihc
        · intro k hk
          cases k with
          | zero =>
              refine ⟨hA, ?_⟩
              rw [Function.iterate_zero_apply, hT]
              norm_num
          | succ j =>
              have hiter : tick^[j + 1] s = tick^[j] { s with timeLeft := s.timeLeft - 1 } := by
                rw [Function.iterate_succ_apply]
                congr 1
                show (tickCount s).1 = _
                rw [hdec]
              rw [hiter]
              obtain ⟨hj1, hj2⟩ := ihk j (by omega)
              refine ⟨hj1, ?_⟩
              rw [hj2]
              push_cast
              ring

theorem tick_run_completes_once_witness :
    completionsIn exC1 2 = 1 :=
  (tick_run_completes_once exC1 2 rfl (by decide) (by decide)).1

end Cosmo
